import Mathlib

/-
Verification of the spaced-repetition core of the german-flashcards app:
the schedule calculator (src/scheduling.py), the due-item selector,
the authorization check, the transactional review mutation and the
single-step undo (src/main.py).

Modelling conventions:
  * Python ints are Lean ℤ, dates are day numbers in ℤ
    (timedelta addition becomes integer addition).
  * Python floats are modelled as exact rationals ℚ; the literals
    appearing in the source (2.5, 1.3, 0.2, 0.15) are exact.
  * The builtin round (round half to even) is pythonRound below.
  * The database is an explicit record of card rows and review-event
    rows; SQL statements become functions on that record.  Statement
    failure is driven by an explicit oracle, and psycopg2 transaction
    semantics (commit on success, rollback on any exception) is
    run_in_user_transaction.
-/

namespace Flashcards

/-- Round half to even on rationals, the behaviour of the Python builtin
round on exact values. -/
def pythonRound (q : ℚ) : ℤ :=
  let f : ℤ := ⌊q⌋
  if q - f < 1/2 then f
  else if 1/2 < q - f then f + 1
  else if f % 2 = 0 then f else f + 1

/-- The record returned by calculate_schedule in src/scheduling.py. -/
structure Schedule where
  interval_days : ℤ
  ease_factor : ℚ
  repetitions : ℤ
  next_due : ℤ
deriving DecidableEq

/-- The grade-to-ease-delta table of src/scheduling.py lines 22-27:
dict lookup with default 0.0 for unrecognized grades. -/
def gradeDelta (grade : String) : ℚ :=
  if grade = "again" then -1/5
  else if grade = "hard" then -3/20
  else if grade = "good" then 0
  else if grade = "easy" then 3/20
  else 0

/-- calculate_schedule from src/scheduling.py.  The interval is computed
from the ease factor as stored on entry; the ease adjustment happens
afterwards.  today is the reference date as a day number. -/
def calculate_schedule (interval_days : ℤ) (ease_factor : ℚ)
    (repetitions : ℤ) (grade : String) (today : ℤ) : Schedule :=
  let ri : ℤ × ℤ :=
    if grade = "again" then (0, 1)
    else
      let reps := repetitions + 1
      if reps = 1 then (reps, 1)
      else if reps = 2 then (reps, 6)
      else (reps, max 1 (pythonRound ((interval_days : ℚ) * ease_factor)))
  { interval_days := ri.2
    ease_factor := max (13/10) (ease_factor + gradeDelta grade)
    repetitions := ri.1
    next_due := today + ri.2 }

/-- Modelled from the spec for comparison in C4: the same algorithm but
with the floors clamped on entry as well (interval_days floored at 1 and
ease_factor floored at 1.3 before they are used). -/
def calculate_schedule_entry_clamped (interval_days : ℤ) (ease_factor : ℚ)
    (repetitions : ℤ) (grade : String) (today : ℤ) : Schedule :=
  calculate_schedule (max 1 interval_days) (max (13/10) ease_factor)
    repetitions grade today

example :
    calculate_schedule 1 (5/2) 0 "good" 0 =
      { interval_days := 1, ease_factor := 5/2, repetitions := 1, next_due := 1 } := by
  with_unfolding_all decide

example :
    calculate_schedule 1 (5/2) 1 "good" 1 =
      { interval_days := 6, ease_factor := 5/2, repetitions := 2, next_due := 7 } := by
  with_unfolding_all decide

example :
    calculate_schedule 6 (5/2) 2 "again" 7 =
      { interval_days := 1, ease_factor := 23/10, repetitions := 0, next_due := 8 } := by
  with_unfolding_all decide

example : calculate_schedule 4 (5/2) 5 "good" 0 =
    { interval_days := 10, ease_factor := 5/2, repetitions := 6, next_due := 10 } := by
  with_unfolding_all decide

/-- Both floors hold on the output of calculate_schedule for arbitrary
inputs, because both clamps sit on the output side. -/
theorem calculate_schedule_floors (i : ℤ) (e : ℚ) (reps : ℤ) (g : String) (t : ℤ) :
    13/10 ≤ (calculate_schedule i e reps g t).ease_factor ∧
    1 ≤ (calculate_schedule i e reps g t).interval_days := by
  refine ⟨le_max_left _ _, ?_⟩
  simp only [calculate_schedule]
  split_ifs <;> simp [le_max_left]

/-- C5: for every input state with interval_days at least 1, ease_factor at
least 1.3 and repetitions at least 0, and every grade, the state returned by
calculate_schedule has ease_factor at least 1.3 and interval_days at
least 1. -/
theorem C5_postcondition_floors (i : ℤ) (e : ℚ) (reps : ℤ) (g : String) (t : ℤ)
    (hi : 1 ≤ i) (he : 13/10 ≤ e) (hr : 0 ≤ reps) :
    13/10 ≤ (calculate_schedule i e reps g t).ease_factor ∧
    1 ≤ (calculate_schedule i e reps g t).interval_days :=
  calculate_schedule_floors i e reps g t

theorem C5_postcondition_floors_witness :
    13/10 ≤ (calculate_schedule 1 (5/2) 0 "good" 0).ease_factor ∧
    1 ≤ (calculate_schedule 1 (5/2) 0 "good" 0).interval_days :=
  C5_postcondition_floors 1 (5/2) 0 "good" 0 (by decide)
    (by with_unfolding_all decide) (by decide)

/-- C4, counterexample: calculate_schedule does not clamp its inputs.  On the
hand-edited state interval_days = 0, ease_factor = 2.5, repetitions = 2
with grade good, the interval computation uses the un-clamped value 0 and
yields interval_days = 1, while the entry-clamped semantics demanded by the
spec yields interval_days = 2 (round(1 * 2.5) with round half to even), so
the two disagree. -/
theorem C4_counterexample :
    (calculate_schedule 0 (5/2) 2 "good" 0).interval_days = 1 ∧
    (calculate_schedule_entry_clamped 0 (5/2) 2 "good" 0).interval_days = 2 ∧
    calculate_schedule 0 (5/2) 2 "good" 0 ≠
      calculate_schedule_entry_clamped 0 (5/2) 2 "good" 0 := by
  refine ⟨?_, ?_, ?_⟩ <;> with_unfolding_all decide

/-- C4, amended: calculate_schedule clamps only its outputs, not its inputs.
For every input state, including hand-edited states with interval_days
below 1 or ease_factor below 1.3, the returned interval_days is at least 1
and the returned ease_factor is at least 1.3; however the un-clamped input
values are what the interval computation uses, so there is no defensive
clamp on entry. -/
theorem C4_output_clamp_only (i : ℤ) (e : ℚ) (reps : ℤ) (g : String) (t : ℤ) :
    13/10 ≤ (calculate_schedule i e reps g t).ease_factor ∧
    1 ≤ (calculate_schedule i e reps g t).interval_days :=
  calculate_schedule_floors i e reps g t

/-- C6: a grade other than again increments repetitions, and the returned
interval_days is 1 when the new repetitions count is 1, 6 when it is 2, and
max 1 (round(previous interval times the ease factor prior to this grading
adjustment)) when it is 3 or more; the grade again always returns
repetitions 0 and interval_days 1; in either case next_due is today plus
the returned interval_days. -/
theorem C6_repetition_ladder (i : ℤ) (e : ℚ) (reps : ℤ) (g : String) (t : ℤ) :
    (g ≠ "again" →
      (calculate_schedule i e reps g t).repetitions = reps + 1 ∧
      (reps + 1 = 1 → (calculate_schedule i e reps g t).interval_days = 1) ∧
      (reps + 1 = 2 → (calculate_schedule i e reps g t).interval_days = 6) ∧
      (3 ≤ reps + 1 →
        (calculate_schedule i e reps g t).interval_days =
          max 1 (pythonRound ((i : ℚ) * e)))) ∧
    (g = "again" →
      (calculate_schedule i e reps g t).repetitions = 0 ∧
      (calculate_schedule i e reps g t).interval_days = 1) ∧
    (calculate_schedule i e reps g t).next_due =
      t + (calculate_schedule i e reps g t).interval_days := by
  refine ⟨fun hg => ?_, fun hg => ?_, ?_⟩
  · simp only [calculate_schedule, if_neg hg]
    refine ⟨by split_ifs <;> rfl, fun h1 => ?_, fun h2 => ?_, fun h3 => ?_⟩
    · simp [h1]
    · have : reps + 1 ≠ 1 := by omega
      simp [h2, this]
    · have h1 : reps + 1 ≠ 1 := by omega
      have h2 : reps + 1 ≠ 2 := by omega
      simp [h1, h2]
  · simp [calculate_schedule, hg]
  · simp [calculate_schedule]

theorem C6_repetition_ladder_witness :
    (calculate_schedule 4 (5/2) 5 "good" 0).interval_days =
      max 1 (pythonRound (((4 : ℤ) : ℚ) * (5/2))) :=
  ((C6_repetition_ladder 4 (5/2) 5 "good" 0).1 (by decide)).2.2.2 (by omega)

/-- C10: among the non-again grades (hard, good, easy, and any unrecognized
token) the choice of grade has no effect on the returned interval_days,
repetitions or next_due, and the returned ease_factor is the clamp of the
input ease plus the grade delta, because the interval is computed from the
ease factor as stored before this grading adjustment. -/
theorem C10_nonagain_grade_invariance (i : ℤ) (e : ℚ) (reps t : ℤ) (g1 g2 : String)
    (h1 : g1 ≠ "again") (h2 : g2 ≠ "again") :
    (calculate_schedule i e reps g1 t).interval_days =
      (calculate_schedule i e reps g2 t).interval_days ∧
    (calculate_schedule i e reps g1 t).repetitions =
      (calculate_schedule i e reps g2 t).repetitions ∧
    (calculate_schedule i e reps g1 t).next_due =
      (calculate_schedule i e reps g2 t).next_due ∧
    (calculate_schedule i e reps g1 t).ease_factor =
      max (13/10) (e + gradeDelta g1) := by
  simp [calculate_schedule, h1, h2]

theorem C10_nonagain_grade_invariance_witness :
    (calculate_schedule 4 (5/2) 5 "hard" 0).interval_days =
      (calculate_schedule 4 (5/2) 5 "easy" 0).interval_days :=
  (C10_nonagain_grade_invariance 4 (5/2) 5 0 "hard" "easy"
    (by decide) (by decide)).1

/-! ## The database and session model of src/main.py

Rows of the cards table.  The schedule columns are nullable, since the
ALTER TABLE migration can leave NULL in pre-existing rows; the queries in
the source guard them with COALESCE or Python or-defaults. -/

/-- A row of the cards table. -/
structure DBCard where
  id : ℕ
  deck_id : ℕ
  front : String
  back : String
  interval_days : Option ℤ
  ease_factor : Option ℚ
  repetitions : Option ℤ
  next_due : Option ℤ
deriving DecidableEq

/-- A row of the review_events table (the append-only ledger). -/
structure ReviewEvent where
  id : ℕ
  user_id : ℕ
  card_id : ℕ
  deck_id : ℕ
  grade : String
deriving DecidableEq

/-- The visible database state: card rows, ledger rows, and the next value
of the review_events id sequence (SERIAL, starting at 1). -/
structure DB where
  cards : List DBCard
  events : List ReviewEvent
  nextEventId : ℕ
deriving DecidableEq

/-- A logged-in user as kept in current_user. -/
structure UserT where
  id : ℕ
  is_admin : Bool
deriving DecidableEq

/-- The in-memory current_card dict built by get_next_card: schedule fields
defaulted with Python or-defaults (res[3] or 1, float(res[4] or 2.5),
res[5] or 0), next_due kept as fetched. -/
structure CardView where
  id : ℕ
  front : String
  back : String
  interval_days : ℤ
  ease_factor : ℚ
  repetitions : ℤ
  next_due : Option ℤ
deriving DecidableEq

/-- Python x or d on a nullable integer column: None and 0 are falsy. -/
def orDefaultZ (o : Option ℤ) (d : ℤ) : ℤ :=
  match o with
  | none => d
  | some v => if v = 0 then d else v

/-- Python x or d on a nullable float column: None and 0.0 are falsy. -/
def orDefaultQ (o : Option ℚ) (d : ℚ) : ℚ :=
  match o with
  | none => d
  | some v => if v = 0 then d else v

/-- Row-to-dict conversion performed by get_next_card and by the SELECT at
the end of undo_write. -/
def toCardView (c : DBCard) : CardView :=
  { id := c.id
    front := c.front
    back := c.back
    interval_days := orDefaultZ c.interval_days 1
    ease_factor := orDefaultQ c.ease_factor (5/2)
    repetitions := orDefaultZ c.repetitions 0
    next_due := c.next_due }

/-- The pre-mutation snapshot carried by the undo payload. -/
structure Snapshot where
  interval_days : ℤ
  ease_factor : ℚ
  repetitions : ℤ
  next_due : Option ℤ
deriving DecidableEq

/-- The single-slot pending undo record built by update_schedule. -/
structure UndoPayload where
  card_id : ℕ
  event_id : ℕ
  previous : Snapshot
deriving DecidableEq

/-- The nonlocal session state of main threaded through the handlers. -/
structure AppState where
  db : DB
  current_user : Option UserT
  current_deck_id : ℕ
  current_deck_owner_id : Option ℕ
  current_card : Option CardView
  is_showing_answer : Bool
  last_rating_action : Option UndoPayload
deriving DecidableEq

/-- The SQL UPDATE in save_schedule: set the four schedule columns of the
card row with the given id. -/
def updateCardSchedule (db : DB) (cid : ℕ) (s : Schedule) : DB :=
  { db with cards := db.cards.map (fun c =>
      if c.id = cid then
        { c with interval_days := some s.interval_days
                 ease_factor := some s.ease_factor
                 repetitions := some s.repetitions
                 next_due := some s.next_due }
      else c) }

/-- The SQL INSERT ... RETURNING id in save_schedule: append a ledger row
and return its fresh id. -/
def insertReviewEvent (db : DB) (uid cid did : ℕ) (grade : String) : DB × ℕ :=
  ({ db with
      events := db.events ++ [{ id := db.nextEventId, user_id := uid,
                                card_id := cid, deck_id := did, grade := grade }]
      nextEventId := db.nextEventId + 1 },
   db.nextEventId)

/-- The SQL UPDATE in undo_write: write the snapshot back into the card
row with the given id. -/
def restoreCardSchedule (db : DB) (cid : ℕ) (p : Snapshot) : DB :=
  { db with cards := db.cards.map (fun c =>
      if c.id = cid then
        { c with interval_days := some p.interval_days
                 ease_factor := some p.ease_factor
                 repetitions := some p.repetitions
                 next_due := p.next_due }
      else c) }

/-- The SQL DELETE in undo_write: remove ledger rows matching both the
event id and the acting user id. -/
def deleteReviewEvent (db : DB) (eid uid : ℕ) : DB :=
  { db with events := db.events.filter (fun e =>
      !(decide (e.id = eid) && decide (e.user_id = uid))) }

/-- The SELECT ... WHERE id = card_id at the end of undo_write. -/
def selectCard (db : DB) (cid : ℕ) : Option DBCard :=
  db.cards.find? (fun c => decide (c.id = cid))

/-- run_in_user_transaction from src/main.py: bind the acting identity,
run the work, commit on success; on any exception roll the whole unit back
so the prior database state stays authoritative.  setupFails models the
set_config statement itself raising. -/
def run_in_user_transaction {α : Type} (db : DB) (setupFails : Bool)
    (work : DB → Except String (DB × α)) : DB × Except String α :=
  if setupFails then (db, .error "set_config failed")
  else
    match work db with
    | .ok (db2, a) => (db2, .ok a)
    | .error e => (db, .error e)

/-- can_schedule_reviews from get_next_card: shared decks (owner NULL)
never get due scheduling, anonymous sessions never do, otherwise the owner
or an admin does. -/
def can_schedule_reviews (st : AppState) : Bool :=
  match st.current_deck_owner_id with
  | none => false
  | some owner =>
    match st.current_user with
    | none => false
    | some u => u.is_admin || decide (u.id = owner)

/-- COALESCE(next_due, CURRENT_DATE) on a card row. -/
def dueKey (c : DBCard) (today : ℤ) : ℤ := c.next_due.getD today

/-- The due predicate of the scheduled SELECT:
COALESCE(next_due, CURRENT_DATE) <= CURRENT_DATE. -/
def cardIsDue (c : DBCard) (today : ℤ) : Bool := decide (dueKey c today ≤ today)

/-- Strict lexicographic comparison on (due date, random draw), the ORDER
BY key of the scheduled SELECT. -/
def keyLt (a b : ℤ × ℕ) : Bool :=
  decide (a.1 < b.1) || (decide (a.1 = b.1) && decide (a.2 < b.2))

/-- ORDER BY key ASC LIMIT 1: return a row whose key is minimal. -/
def pickMinBy (key : DBCard → ℤ × ℕ) : List DBCard → Option DBCard
  | [] => none
  | c :: cs =>
    match pickMinBy key cs with
    | none => some c
    | some b => if keyLt (key c) (key b) then some c else some b

/-- The row returned by the SELECT of get_next_card.  r models RANDOM():
an arbitrary draw attached to each row.  With scheduling rights the query
keeps only due rows of the deck and orders by (coalesced due date,
random); without them it samples the whole deck by random order alone. -/
def get_next_card_query (db : DB) (deckId : ℕ) (today : ℤ) (canSched : Bool)
    (r : DBCard → ℕ) : Option DBCard :=
  let deckCards := db.cards.filter (fun c => decide (c.deck_id = deckId))
  if canSched then
    pickMinBy (fun c => (dueKey c today, r c))
      (deckCards.filter (fun c => cardIsDue c today))
  else
    pickMinBy (fun c => (0, r c)) deckCards

/-- The state effect of get_next_card: load the fetched row (if any) into
current_card and reset the answer flag. -/
def get_next_card (st : AppState) (today : ℤ) (r : DBCard → ℕ) : AppState :=
  let res := get_next_card_query st.db st.current_deck_id today
    (can_schedule_reviews st) r
  { st with current_card := res.map toCardView, is_showing_answer := false }

/-- The transactional work closure save_schedule of update_schedule: the
card UPDATE followed by the ledger INSERT, in one transaction.  failAt
models each statement raising (0 the UPDATE, 1 the INSERT). -/
def save_schedule (cid did uid : ℕ) (grade : String) (s : Schedule)
    (failAt : ℕ → Bool) (db : DB) : Except String (DB × ℕ) :=
  if failAt 0 then .error "update failed"
  else
    let db1 := updateCardSchedule db cid s
    if failAt 1 then .error "insert failed"
    else .ok (insertReviewEvent db1 uid cid did grade)

/-- The outcome of update_schedule: the (ok, msg, schedule, undo_payload)
tuple collapsed to its informative cases. -/
inductive RateResult where
  | ok (schedule : Schedule) (payload : UndoPayload)
  | err (msg : String)
deriving DecidableEq

/-- update_schedule from src/main.py: snapshot the current card, compute
the new schedule, and run save_schedule inside run_in_user_transaction;
any exception surfaces as a failed result with the database rolled
back. -/
def update_schedule (st : AppState) (grade : String) (today : ℤ)
    (setupFails : Bool) (failAt : ℕ → Bool) : DB × RateResult :=
  match st.current_card with
  | none => (st.db, .err "No card selected.")
  | some cv =>
    match st.current_user with
    | none => (st.db, .err "Login required.")
    | some u =>
      let previous : Snapshot :=
        { interval_days := cv.interval_days, ease_factor := cv.ease_factor,
          repetitions := cv.repetitions, next_due := cv.next_due }
      let schedule := calculate_schedule cv.interval_days cv.ease_factor
        cv.repetitions grade today
      match run_in_user_transaction st.db setupFails
          (save_schedule cv.id st.current_deck_id u.id grade schedule failAt) with
      | (db2, .ok eid) =>
        (db2, .ok schedule { card_id := cv.id, event_id := eid, previous := previous })
      | (db2, .error e) => (db2, .err e)

/-- The user-visible outcome of rate_card. -/
inductive RateOutcome where
  | noCard
  | flipFirst
  | sharedDeck
  | loginRequired
  | notOwner
  | saveFailed (msg : String)
  | saved (schedule : Schedule)
deriving DecidableEq

/-- rate_card from src/main.py: the guard ladder (card present, answer
revealed, deck not shared, logged in, owner or admin), then the
transactional mutation; on success the undo slot is overwritten and the
next card is fetched. -/
def rate_card (st : AppState) (grade : String) (today : ℤ)
    (setupFails : Bool) (failAt : ℕ → Bool) (r : DBCard → ℕ) :
    AppState × RateOutcome :=
  match st.current_card with
  | none => (st, .noCard)
  | some _ =>
    if st.is_showing_answer then
      match st.current_deck_owner_id with
      | none => (st, .sharedDeck)
      | some owner =>
        match st.current_user with
        | none => (st, .loginRequired)
        | some u =>
          if u.is_admin || decide (u.id = owner) then
            match update_schedule st grade today setupFails failAt with
            | (db2, .err msg) => ({ st with db := db2 }, .saveFailed msg)
            | (db2, .ok schedule payload) =>
              let st2 := { st with db := db2, last_rating_action := some payload }
              (get_next_card st2 today r, .saved schedule)
          else (st, .notOwner)
    else (st, .flipFirst)

/-- The user-visible outcome of undo_last_rating. -/
inductive UndoOutcome where
  | noOp
  | loginRequired
  | failed (msg : String)
  | undone
deriving DecidableEq

/-- The transactional work closure undo_write of undo_last_rating: restore
the snapshot, delete the ledger row by id scoped to the acting user (only
when the recorded event id is truthy), then re-read the card.  failAt
models each statement raising (0 the UPDATE, 1 the DELETE, 2 the
SELECT). -/
def undo_write (payload : UndoPayload) (uid : ℕ) (failAt : ℕ → Bool)
    (db : DB) : Except String (DB × Option DBCard) :=
  if failAt 0 then .error "update failed"
  else
    let db1 := restoreCardSchedule db payload.card_id payload.previous
    if payload.event_id ≠ 0 then
      if failAt 1 then .error "delete failed"
      else
        let db2 := deleteReviewEvent db1 payload.event_id uid
        if failAt 2 then .error "select failed"
        else .ok (db2, selectCard db2 payload.card_id)
    else
      if failAt 2 then .error "select failed"
      else .ok (db1, selectCard db1 payload.card_id)

/-- undo_last_rating from src/main.py: no-op when no action is pending,
otherwise run undo_write transactionally; only on success is the pending
slot cleared and the restored row loaded back into current_card. -/
def undo_last_rating (st : AppState) (setupFails : Bool) (failAt : ℕ → Bool)
    (today : ℤ) (r : DBCard → ℕ) : AppState × UndoOutcome :=
  match st.last_rating_action with
  | none => (st, .noOp)
  | some payload =>
    match st.current_user with
    | none => (st, .loginRequired)
    | some u =>
      match run_in_user_transaction st.db setupFails
          (undo_write payload u.id failAt) with
      | (db2, .error e) => ({ st with db := db2 }, .failed e)
      | (db2, .ok restored) =>
        let st2 := { st with db := db2, last_rating_action := none }
        match restored with
        | some row =>
          ({ st2 with current_card := some (toCardView row),
                      is_showing_answer := false }, .undone)
        | none => (get_next_card st2 today r, .undone)

/-- get_next_card only touches current_card and the answer flag. -/
theorem get_next_card_preserves (st : AppState) (t : ℤ) (r : DBCard → ℕ) :
    (get_next_card st t r).db = st.db ∧
    (get_next_card st t r).last_rating_action = st.last_rating_action ∧
    (get_next_card st t r).current_user = st.current_user := by
  simp [get_next_card]

/-- A concrete card, user and session used to instantiate the theorems. -/
def cardA : DBCard :=
  { id := 1, deck_id := 3, front := "Der Hund", back := "The Dog",
    interval_days := some 1, ease_factor := some (5/2),
    repetitions := some 0, next_due := some 0 }

def userA : UserT := { id := 7, is_admin := false }

def dbA : DB := { cards := [cardA], events := [], nextEventId := 1 }

def stA : AppState :=
  { db := dbA, current_user := some userA, current_deck_id := 3,
    current_deck_owner_id := some 7, current_card := some (toCardView cardA),
    is_showing_answer := true, last_rating_action := none }

def adminB : UserT := { id := 9, is_admin := true }

/-- A session viewing a shared deck (owner NULL) as an admin. -/
def stShared : AppState :=
  { db := dbA, current_user := some adminB, current_deck_id := 3,
    current_deck_owner_id := none, current_card := some (toCardView cardA),
    is_showing_answer := true, last_rating_action := none }

/-- C9: a grade submitted while the answer is not revealed is rejected with
the flip-before-rating outcome and the state, in particular the card
schedule and the ledger, is left untouched. -/
theorem C9_grade_requires_reveal (st : AppState) (grade : String) (t : ℤ)
    (sf : Bool) (f : ℕ → Bool) (r : DBCard → ℕ) (cv : CardView)
    (hcv : st.current_card = some cv) (hflip : st.is_showing_answer = false) :
    rate_card st grade t sf f r = (st, .flipFirst) := by
  simp [rate_card, hcv, hflip]

theorem C9_grade_requires_reveal_witness :
    rate_card { stA with is_showing_answer := false } "good" 0 false
      (fun _ => false) (fun _ => 0) =
    ({ stA with is_showing_answer := false }, .flipFirst) :=
  C9_grade_requires_reveal _ "good" 0 false (fun _ => false) (fun _ => 0)
    (toCardView cardA) rfl rfl

/-- C3, counterexample: on a shared deck (owner NULL) even a privileged
(admin) identity has can_schedule_reviews false, and its rate_card call is
rejected with the shared-deck outcome instead of being permitted, contrary
to the claim that scheduling and mutation are allowed exactly for
privileged identities. -/
theorem C3_counterexample :
    can_schedule_reviews stShared = false ∧
    rate_card stShared "good" 0 false (fun _ => false) (fun _ => 0) =
      (stShared, .sharedDeck) := by
  exact ⟨rfl, rfl⟩

/-- C3, amended: on a shared deck (owner NULL) can_schedule_reviews is
false for every identity, privileged or not, and rate_card rejects every
caller before any mutation: the state is returned unchanged and the
outcome is one of the three pre-authorization rejections. -/
theorem C3_shared_deck_denied (st : AppState) (grade : String) (t : ℤ)
    (sf : Bool) (f : ℕ → Bool) (r : DBCard → ℕ)
    (hshared : st.current_deck_owner_id = none) :
    can_schedule_reviews st = false ∧
    (rate_card st grade t sf f r).1 = st ∧
    ((rate_card st grade t sf f r).2 = .noCard ∨
     (rate_card st grade t sf f r).2 = .flipFirst ∨
     (rate_card st grade t sf f r).2 = .sharedDeck) := by
  refine ⟨by simp [can_schedule_reviews, hshared], ?_, ?_⟩ <;>
    rcases hcc : st.current_card with _ | cv <;>
      rcases hsa : st.is_showing_answer <;>
        simp [rate_card, hcc, hsa, hshared]

theorem C3_shared_deck_denied_witness :
    (rate_card stShared "hard" 0 false (fun _ => false) (fun _ => 0)).1 =
      stShared :=
  (C3_shared_deck_denied stShared "hard" 0 false (fun _ => false)
    (fun _ => 0) rfl).2.1

/-- C1: the card UPDATE and the ledger INSERT of a grading call form one
atomic unit.  Whenever update_schedule reports success, the resulting
database is exactly the pre-call database with both the schedule update
and the ledger insertion applied; whenever it reports failure, whichever
statement raised, the resulting database is exactly the pre-call database
(full rollback, no half-applied mutation). -/
theorem C1_review_mutation_atomic (st : AppState) (grade : String) (t : ℤ)
    (sf : Bool) (f : ℕ → Bool) (cv : CardView) (u : UserT)
    (hcv : st.current_card = some cv) (hu : st.current_user = some u) :
    (∀ s p, (update_schedule st grade t sf f).2 = RateResult.ok s p →
       (update_schedule st grade t sf f).1 =
         (insertReviewEvent (updateCardSchedule st.db cv.id s) u.id cv.id
            st.current_deck_id grade).1) ∧
    (∀ msg, (update_schedule st grade t sf f).2 = RateResult.err msg →
       (update_schedule st grade t sf f).1 = st.db) := by
  simp only [update_schedule, hcv, hu, run_in_user_transaction, save_schedule]
  by_cases hsf : sf <;> by_cases h0 : f 0 <;> by_cases h1 : f 1 <;>
    simp [hsf, h0, h1]

def cvA : CardView := toCardView cardA

def schedA : Schedule :=
  calculate_schedule cvA.interval_days cvA.ease_factor cvA.repetitions "good" 0

def payloadA : UndoPayload :=
  { card_id := cvA.id, event_id := 1,
    previous := { interval_days := cvA.interval_days,
                  ease_factor := cvA.ease_factor,
                  repetitions := cvA.repetitions,
                  next_due := cvA.next_due } }

theorem C1_review_mutation_atomic_witness :
    (update_schedule stA "good" 0 false (fun _ => false)).1 =
      (insertReviewEvent (updateCardSchedule stA.db cvA.id schedA) userA.id
         cvA.id stA.current_deck_id "good").1 :=
  (C1_review_mutation_atomic stA "good" 0 false (fun _ => false) cvA userA
      rfl rfl).1 schedA payloadA (by with_unfolding_all decide)

/-- C8: a successful undo consumes the pending action: it reports the
undone outcome and clears the slot, and a second undo call immediately
after, whatever its failure oracle, returns the benign no-op outcome and
leaves the whole state, in particular the card schedule and the ledger,
completely unchanged. -/
theorem C8_undo_consumed_once (st : AppState) (t t2 : ℤ) (r r2 : DBCard → ℕ)
    (sf2 : Bool) (f2 : ℕ → Bool) (p : UndoPayload) (u : UserT)
    (hp : st.last_rating_action = some p) (hu : st.current_user = some u) :
    (undo_last_rating st false (fun _ => false) t r).2 = .undone ∧
    (undo_last_rating st false (fun _ => false) t r).1.last_rating_action = none ∧
    undo_last_rating (undo_last_rating st false (fun _ => false) t r).1
        sf2 f2 t2 r2 =
      ((undo_last_rating st false (fun _ => false) t r).1, .noOp) := by
  have hfirst :
      (undo_last_rating st false (fun _ => false) t r).2 = .undone ∧
      (undo_last_rating st false (fun _ => false) t r).1.last_rating_action = none := by
    simp only [undo_last_rating, hp, hu, run_in_user_transaction, undo_write,
      if_neg (Bool.false_ne_true)]
    by_cases hid : p.event_id = 0 <;>
      simp [hid] <;> split <;> simp [get_next_card]
  refine ⟨hfirst.1, hfirst.2, ?_⟩
  obtain ⟨-, h2⟩ := hfirst
  set st1 := (undo_last_rating st false (fun _ => false) t r).1 with hdef
  simp [undo_last_rating, h2]

/-- The database state after grading cardA once in stA. -/
def dbB : DB :=
  (insertReviewEvent (updateCardSchedule dbA cvA.id schedA) userA.id cvA.id 3
    "good").1

/-- The session right after that grading, holding the pending undo. -/
def stB : AppState :=
  { db := dbB, current_user := some userA, current_deck_id := 3,
    current_deck_owner_id := some 7, current_card := some cvA,
    is_showing_answer := false, last_rating_action := some payloadA }

theorem C8_undo_consumed_once_witness :
    undo_last_rating (undo_last_rating stB false (fun _ => false) 0
        (fun _ => 0)).1 false (fun _ => false) 0 (fun _ => 0) =
      ((undo_last_rating stB false (fun _ => false) 0 (fun _ => 0)).1,
        .noOp) :=
  (C8_undo_consumed_once stB 0 0 (fun _ => 0) (fun _ => 0) false
    (fun _ => false) payloadA userA rfl rfl).2.2

theorem keyLt_true_iff (a b : ℤ × ℕ) :
    keyLt a b = true ↔ a.1 < b.1 ∨ (a.1 = b.1 ∧ a.2 < b.2) := by
  simp [keyLt]

/-- pickMinBy returns none exactly on the empty list. -/
theorem pickMinBy_eq_none_iff (key : DBCard → ℤ × ℕ) (l : List DBCard) :
    pickMinBy key l = none ↔ l = [] := by
  cases l with
  | nil => simp [pickMinBy]
  | cons a as =>
    simp only [pickMinBy]
    rcases hm : pickMinBy key as with _ | b
    · simp
    · simp only []
      split <;> simp

/-- pickMinBy returns a member of the list. -/
theorem pickMinBy_mem (key : DBCard → ℤ × ℕ) :
    ∀ (l : List DBCard) (c : DBCard), pickMinBy key l = some c → c ∈ l := by
  intro l
  induction l with
  | nil => intro c h; simp [pickMinBy] at h
  | cons a as ih =>
    intro c h
    simp only [pickMinBy] at h
    rcases hm : pickMinBy key as with _ | b
    · simp only [hm, Option.some.injEq] at h
      simp [h]
    · simp only [hm] at h
      split at h <;> simp only [Option.some.injEq] at h <;> subst h
      · simp
      · exact List.mem_cons_of_mem _ (ih _ hm)

/-- pickMinBy returns a row of minimal key. -/
theorem pickMinBy_min (key : DBCard → ℤ × ℕ) :
    ∀ (l : List DBCard) (c : DBCard), pickMinBy key l = some c →
      ∀ b ∈ l, keyLt (key b) (key c) = false := by
  intro l
  induction l with
  | nil => intro c h; simp [pickMinBy] at h
  | cons a as ih =>
    intro c h b hb
    simp only [pickMinBy] at h
    rcases hm : pickMinBy key as with _ | m
    · have has : as = [] := (pickMinBy_eq_none_iff key as).1 hm
      subst has
      simp only [hm, Option.some.injEq] at h
      subst h
      simp only [List.mem_singleton] at hb
      subst hb
      simp [keyLt]
    · simp only [hm] at h
      rcases List.mem_cons.mp hb with hba | hbas
      · subst hba
        split at h <;> simp only [Option.some.injEq] at h <;> subst h
        · simp [keyLt]
        · simpa using ‹¬ keyLt (key b) (key m) = true›
      · have hbm := ih m hm b hbas
        split at h <;> simp only [Option.some.injEq] at h <;> subst h
        · have ham := ‹keyLt (key a) (key m) = true›
          rw [keyLt_true_iff] at ham
          rw [Bool.eq_false_iff] at hbm ⊢
          rw [Ne, keyLt_true_iff] at hbm ⊢
          omega
        · exact hbm

/-- C7: with scheduling rights, the selection query only ever returns a
due card of the current deck (never a card with next_due after today), it
returns a card of minimal coalesced due date among the due cards of the
deck (ordering by next_due ascending, ties left to the random draw), and
it returns none exactly when no card of the deck is due. -/
theorem C7_due_selection (db : DB) (deckId : ℕ) (t : ℤ) (r : DBCard → ℕ) :
    (∀ c, get_next_card_query db deckId t true r = some c →
       cardIsDue c t = true ∧ c.deck_id = deckId ∧
       ∀ b ∈ db.cards, b.deck_id = deckId → cardIsDue b t = true →
         dueKey c t ≤ dueKey b t) ∧
    (get_next_card_query db deckId t true r = none ↔
       ∀ b ∈ db.cards, b.deck_id = deckId → cardIsDue b t = false) := by
  constructor
  · intro c hc
    simp only [get_next_card_query, if_pos] at hc
    have hmem := pickMinBy_mem _ _ _ hc
    rw [List.mem_filter] at hmem
    obtain ⟨hdeck, hdue⟩ := hmem
    rw [List.mem_filter] at hdeck
    obtain ⟨hcards, hdid⟩ := hdeck
    refine ⟨hdue, by simpa using hdid, ?_⟩
    intro b hb hbdeck hbdue
    have hbmem : b ∈ (db.cards.filter
        (fun x => decide (x.deck_id = deckId))).filter (fun x => cardIsDue x t) := by
      rw [List.mem_filter]
      exact ⟨List.mem_filter.mpr ⟨hb, by simp [hbdeck]⟩, hbdue⟩
    have hlt := pickMinBy_min _ _ _ hc b hbmem
    rw [Bool.eq_false_iff, Ne, keyLt_true_iff] at hlt
    simp only at hlt
    omega
  · simp only [get_next_card_query, if_pos]
    rw [pickMinBy_eq_none_iff, List.filter_eq_nil_iff]
    constructor
    · intro h b hb hbdeck
      by_contra hdue
      exact h b (List.mem_filter.mpr ⟨hb, by simp [hbdeck]⟩)
        (by simpa using hdue)
    · intro h b hb
      rw [List.mem_filter] at hb
      have := h b hb.1 (by simpa using hb.2)
      simp [this]

/-- A second card of the same deck, not due at day 0. -/
def cardB : DBCard :=
  { id := 2, deck_id := 3, front := "Die Katze", back := "The Cat",
    interval_days := some 6, ease_factor := some (5/2),
    repetitions := some 2, next_due := some 5 }

def dbC : DB := { cards := [cardA, cardB], events := [], nextEventId := 1 }

theorem C7_due_selection_witness : cardIsDue cardA 0 = true :=
  ((C7_due_selection dbC 3 0 (fun _ => 0)).1 cardA
    (by with_unfolding_all decide)).1

/-- Writing the snapshot back cancels the schedule UPDATE row for row:
other rows are untouched twice, and the graded row gets exactly the
snapshot values. -/
theorem restore_cancels_update (cards : List DBCard) (cid : ℕ) (s : Schedule)
    (p : Snapshot) :
    (cards.map (fun c => if c.id = cid then
        { c with interval_days := some s.interval_days
                 ease_factor := some s.ease_factor
                 repetitions := some s.repetitions
                 next_due := some s.next_due } else c)).map
      (fun c => if c.id = cid then
        { c with interval_days := some p.interval_days
                 ease_factor := some p.ease_factor
                 repetitions := some p.repetitions
                 next_due := p.next_due } else c) =
    cards.map (fun c => if c.id = cid then
        { c with interval_days := some p.interval_days
                 ease_factor := some p.ease_factor
                 repetitions := some p.repetitions
                 next_due := p.next_due } else c) := by
  rw [List.map_map]
  refine List.map_congr_left fun c _ => ?_
  by_cases h : c.id = cid <;> simp [h, Function.comp]

/-- Deleting the freshly inserted ledger row by its id, scoped to the
inserting user, removes exactly that row and leaves the prior ledger
intact. -/
theorem delete_inserted_event (events : List ReviewEvent) (ev : ReviewEvent)
    (uid : ℕ) (hid : ev.user_id = uid) (hfresh : ∀ e ∈ events, e.id < ev.id) :
    (events ++ [ev]).filter
      (fun e => !(decide (e.id = ev.id) && decide (e.user_id = uid))) =
      events := by
  rw [List.filter_append]
  have h2 : [ev].filter
      (fun e => !(decide (e.id = ev.id) && decide (e.user_id = uid))) = [] := by
    simp [hid]
  rw [h2, List.append_nil, List.filter_eq_self]
  intro e he
  have := hfresh e he
  simp only [Bool.not_eq_true', Bool.and_eq_false_iff, decide_eq_false_iff_not]
  left
  omega

theorem updateCardSchedule_nextEventId (db : DB) (cid : ℕ) (s : Schedule) :
    (updateCardSchedule db cid s).nextEventId = db.nextEventId := rfl

theorem updateCardSchedule_events (db : DB) (cid : ℕ) (s : Schedule) :
    (updateCardSchedule db cid s).events = db.events := rfl

/-- C2: grading a card through rate_card and then undoing through
undo_last_rating reports the new schedule and then the undone outcome,
restores the schedule fields of exactly the graded card to the
pre-mutation snapshot while every other card row is unchanged, removes
exactly the one ReviewEvent that the grading inserted (deleted by its id,
scoped to the acting identity) so the ledger returns to its pre-grading
rows, and clears the pending-undo slot. -/
theorem C2_record_then_undo_roundtrip (st : AppState) (grade : String) (t : ℤ)
    (r r2 : DBCard → ℕ) (cv : CardView) (u : UserT) (ow : ℕ)
    (hcv : st.current_card = some cv) (hu : st.current_user = some u)
    (how : st.current_deck_owner_id = some ow)
    (hperm : (u.is_admin || decide (u.id = ow)) = true)
    (hshow : st.is_showing_answer = true)
    (hfresh : ∀ e ∈ st.db.events, e.id < st.db.nextEventId)
    (hpos : 1 ≤ st.db.nextEventId) :
    (rate_card st grade t false (fun _ => false) r).2 =
      .saved (calculate_schedule cv.interval_days cv.ease_factor
        cv.repetitions grade t) ∧
    (undo_last_rating (rate_card st grade t false (fun _ => false) r).1
        false (fun _ => false) t r2).2 = .undone ∧
    (undo_last_rating (rate_card st grade t false (fun _ => false) r).1
        false (fun _ => false) t r2).1.db.events = st.db.events ∧
    (undo_last_rating (rate_card st grade t false (fun _ => false) r).1
        false (fun _ => false) t r2).1.db.cards =
      st.db.cards.map (fun c =>
        if c.id = cv.id then
          { c with interval_days := some cv.interval_days
                   ease_factor := some cv.ease_factor
                   repetitions := some cv.repetitions
                   next_due := cv.next_due }
        else c) ∧
    (undo_last_rating (rate_card st grade t false (fun _ => false) r).1
        false (fun _ => false) t r2).1.last_rating_action = none := by
  have hrate : rate_card st grade t false (fun _ => false) r =
      (get_next_card
        { st with
            db := (insertReviewEvent (updateCardSchedule st.db cv.id
              (calculate_schedule cv.interval_days cv.ease_factor
                cv.repetitions grade t)) u.id cv.id st.current_deck_id
              grade).1
            last_rating_action := some
              { card_id := cv.id, event_id := st.db.nextEventId,
                previous := { interval_days := cv.interval_days,
                              ease_factor := cv.ease_factor,
                              repetitions := cv.repetitions,
                              next_due := cv.next_due } } } t r,
       .saved (calculate_schedule cv.interval_days cv.ease_factor
         cv.repetitions grade t)) := by
    simp [rate_card, hcv, hshow, how, hu, hperm, update_schedule,
      run_in_user_transaction, save_schedule, insertReviewEvent,
      updateCardSchedule_nextEventId, updateCardSchedule_events]
  rw [hrate]
  have hne : st.db.nextEventId ≠ 0 := by omega
  have hevents :
      (deleteReviewEvent (restoreCardSchedule
        (insertReviewEvent (updateCardSchedule st.db cv.id
          (calculate_schedule cv.interval_days cv.ease_factor
            cv.repetitions grade t)) u.id cv.id st.current_deck_id grade).1
        cv.id
        { interval_days := cv.interval_days, ease_factor := cv.ease_factor,
          repetitions := cv.repetitions, next_due := cv.next_due })
        st.db.nextEventId u.id).events = st.db.events := by
    simp only [deleteReviewEvent, restoreCardSchedule, insertReviewEvent,
      updateCardSchedule]
    exact delete_inserted_event st.db.events
      { id := st.db.nextEventId, user_id := u.id, card_id := cv.id,
        deck_id := st.current_deck_id, grade := grade } u.id rfl hfresh
  have hcards :
      (deleteReviewEvent (restoreCardSchedule
        (insertReviewEvent (updateCardSchedule st.db cv.id
          (calculate_schedule cv.interval_days cv.ease_factor
            cv.repetitions grade t)) u.id cv.id st.current_deck_id grade).1
        cv.id
        { interval_days := cv.interval_days, ease_factor := cv.ease_factor,
          repetitions := cv.repetitions, next_due := cv.next_due })
        st.db.nextEventId u.id).cards =
      st.db.cards.map (fun c =>
        if c.id = cv.id then
          { c with interval_days := some cv.interval_days
                   ease_factor := some cv.ease_factor
                   repetitions := some cv.repetitions
                   next_due := cv.next_due }
        else c) := by
    simp only [deleteReviewEvent, restoreCardSchedule, insertReviewEvent,
      updateCardSchedule]
    exact restore_cancels_update st.db.cards cv.id
      (calculate_schedule cv.interval_days cv.ease_factor cv.repetitions
        grade t)
      { interval_days := cv.interval_days, ease_factor := cv.ease_factor,
        repetitions := cv.repetitions, next_due := cv.next_due }
  refine ⟨rfl, ?_, ?_, ?_, ?_⟩ <;>
    simp only [undo_last_rating, get_next_card, run_in_user_transaction,
      undo_write, can_schedule_reviews, hu, how, hne] <;>
    simp [hne, hevents, hcards] <;>
    split <;>
    simp [get_next_card, hevents, hcards]

theorem C2_record_then_undo_roundtrip_witness :
    (undo_last_rating (rate_card stA "good" 0 false (fun _ => false)
        (fun _ => 0)).1 false (fun _ => false) 0 (fun _ => 0)).1.db.events =
      stA.db.events :=
  (C2_record_then_undo_roundtrip stA "good" 0 (fun _ => 0) (fun _ => 0) cvA
    userA 7 rfl rfl rfl (by decide) rfl (by simp [stA, dbA]) (by decide)).2.2.1

end Flashcards
